import Mathlib

/-!
Verification of `safeptr.hpp` (SafePtr<T,Deleter>, SafeWeakPtr<T,Deleter>):
a shallow embedding of the control block, its borrow guards and the
reclamation protocol, with the heap modelled explicitly so that deleter
calls (and hence double-free / use-after-free questions) are observable.

Heap objects are identified by their address (`Addr`); `live` is the list of
addresses currently allocated and not yet passed to the deleter, and
`destroyed` is the ordered log of deleter invocations.
-/

set_option autoImplicit false

namespace SafePtrModel

/-- Heap addresses standing for the `T*` pointers of the source. -/
abbrev Addr := Nat

/-- State of one `safeptr::SafePtr<T>::ControlBlock` (safeptr.hpp lines 41-66)
together with the heap bookkeeping needed to observe reclamation: `ptr` is the
current version, `readers` the active-reader count, `retired` the single slot
for an old version pending deletion, `locked` the writer mutex, `strong` and
`weak` the handle reference counters; `live` lists the allocated addresses not
yet handed to the deleter, `destroyed` logs deleter invocations in order. -/
structure MState (α : Type) where
  ptr : Option α
  readers : Nat
  retired : Option α
  locked : Bool
  strong : Nat
  weak : Nat
  live : List α
  destroyed : List α
  deriving DecidableEq

/-- Invocation of the ControlBlock's deleter on address `a`: the object leaves
the heap and the call is logged. -/
def deleterCall {α : Type} [DecidableEq α] (a : α) (s : MState α) : MState α :=
  { s with live := s.live.erase a, destroyed := s.destroyed ++ [a] }

/-- SafePtr::WriteGuard::commit_and_cleanup (safeptr.hpp lines 413-439): when
nothing was staged the state is untouched; otherwise the staged pointer is
exchanged into `ptr`, and the previous pointer `old_global` is deleted
immediately when the reader count is zero, else parked in the retired slot
when that slot is empty (the compare-exchange succeeds), else deleted
immediately (the compare-exchange fails). -/
def commit_and_cleanup {α : Type} [DecidableEq α] (lcl : Option α) (s : MState α) :
    MState α :=
  match lcl with
  | none => s
  | some new_ptr =>
    match s.ptr with
    | none => { s with ptr := some new_ptr }
    | some og =>
      if s.readers = 0 then deleterCall og { s with ptr := some new_ptr }
      else if s.retired = none then { s with ptr := some new_ptr, retired := some og }
      else deleterCall og { s with ptr := some new_ptr }

/-- Destruction of a WriteGuard (safeptr.hpp lines 354-356): commit_and_cleanup
followed by the unique_lock releasing the writer mutex. -/
def writeGuardDtor {α : Type} [DecidableEq α] (lcl : Option α) (s : MState α) :
    MState α :=
  { commit_and_cleanup lcl s with locked := false }

/-- SafePtr::ReadGuard acquisition (safeptr.hpp lines 240-253): increment
`readers`, then snapshot `ptr`; returns the new block state and the guard's
snapshot pointer. -/
def readAcquire {α : Type} (s : MState α) : MState α × Option α :=
  let s1 := { s with readers := s.readers + 1 }
  (s1, s1.ptr)

/-- SafePtr::ReadGuard::release (safeptr.hpp lines 281-295): fetch_sub on
`readers`; only the release observing the transition to zero (previous value
1) swaps the retired slot to empty and deletes its occupant. -/
def readRelease {α : Type} [DecidableEq α] (s : MState α) : MState α :=
  if s.readers = 1 then
    match s.retired with
    | none => { s with readers := s.readers - 1 }
    | some r => deleterCall r { s with readers := s.readers - 1, retired := none }
  else { s with readers := s.readers - 1 }

/-- Events of the borrow protocol on one ControlBlock, sequentialized under the
writer mutex: a complete write (take the lock, stage a freshly allocated value
via set_value, destroy the guard), a ReadGuard acquisition, a ReadGuard
release. -/
inductive Op (α : Type) where
  | write (a : α)
  | acquire
  | release
  deriving DecidableEq

/-- One protocol event. A write allocates its staged value (set_value,
safeptr.hpp lines 367-373, `new T(v)`), holds the lock, and destroys the
guard, which commits and releases the lock. -/
def stepOp {α : Type} [DecidableEq α] (s : MState α) (op : Op α) : MState α :=
  match op with
  | .write a => writeGuardDtor (some a) { s with live := a :: s.live, locked := true }
  | .acquire => (readAcquire s).1
  | .release => readRelease s

/-- Run a sequence of protocol events. -/
def runOps {α : Type} [DecidableEq α] (s : MState α) (ops : List (Op α)) : MState α :=
  ops.foldl stepOp s

/-- Initial state made by `SafePtr(T* p)` with `p` the non-null address `a`
(safeptr.hpp lines 52-54, 100-102): current = `a`, no readers, empty retired
slot, lock free, strong = 1, weak = 0; the heap holds the one allocation. -/
def init (a : Addr) : MState Addr :=
  { ptr := some a, readers := 0, retired := none, locked := false,
    strong := 1, weak := 0, live := [a], destroyed := [] }

/-- Private staging state of a WriteGuard (safeptr.hpp lines 306-309): the
snapshot of the old version and the optional staged new version, viewed at the
value level (`local_buf` holds the payload of the guard's private buffer). -/
structure WGuard (α : Type) where
  old_ptr : Option α
  local_buf : Option α
  deriving DecidableEq

/-- WriteGuard::set_value (safeptr.hpp lines 367-373): the first call allocates
the private buffer holding a copy of `v`; later calls assign `v` over the
existing buffer. -/
def set_value {α : Type} (g : WGuard α) (v : α) : WGuard α :=
  match g.local_buf with
  | none => { g with local_buf := some v }
  | some _ => { g with local_buf := some v }

/-- Error taxonomy (spec section 7): the two std::logic_error sites of the
source. -/
inductive SPError where
  | NullHandle
  | NoOldValue
  deriving DecidableEq

/-- WriteGuard::old (safeptr.hpp lines 359-364): throws when the guard's
old-version snapshot is null. -/
def WGuard.old {α : Type} (g : WGuard α) : Except SPError α :=
  match g.old_ptr with
  | none => .error .NoOldValue
  | some a => .ok a

/-- Owning handle `SafePtr<T>`: holds either no ControlBlock or one (field
`ctrl`, safeptr.hpp line 68); the unique owner's block state is carried
inline. -/
structure SPHandle where
  ctrl : Option (MState Addr)
  deriving DecidableEq

/-- SafePtr::SafePtr(T* p) (safeptr.hpp lines 100-102): `p ? new
ControlBlock(p) : nullptr`; the raw pointer is `none` for null. -/
def mkSafePtr (p : Option Addr) : SPHandle :=
  match p with
  | none => { ctrl := none }
  | some a => { ctrl := some (init a) }

/-- Default-constructed empty SafePtr (safeptr.hpp line 97). -/
def defaultSafePtr : SPHandle := { ctrl := none }

/-- SafePtr::valid (safeptr.hpp lines 132-135): a ControlBlock exists and holds
a value. -/
def SPHandle.valid (h : SPHandle) : Bool :=
  match h.ctrl with
  | none => false
  | some s => s.ptr.isSome

/-- SafePtr::read (safeptr.hpp lines 176-181): throws on a null ControlBlock,
otherwise returns a ReadGuard (updated block state plus snapshot). -/
def SPHandle.read (h : SPHandle) : Except SPError (MState Addr × Option Addr) :=
  match h.ctrl with
  | none => .error .NullHandle
  | some s => .ok (readAcquire s)

/-- SafePtr::write (safeptr.hpp lines 187-192 and 315-320): throws on a null
ControlBlock, otherwise blocks for the writer mutex and returns a WriteGuard
that holds the lock and snapshots `old_ptr` from `ptr`. -/
def SPHandle.write (h : SPHandle) : Except SPError (MState Addr × WGuard Addr) :=
  match h.ctrl with
  | none => .error .NullHandle
  | some s => .ok ({ s with locked := true }, { old_ptr := s.ptr, local_buf := none })

/-- SafePtr::try_read (safeptr.hpp lines 201-206): noexcept; empty exactly on a
null ControlBlock, otherwise a guard. -/
def SPHandle.try_read (h : SPHandle) : Option (MState Addr × Option Addr) :=
  match h.ctrl with
  | none => none
  | some s => some (readAcquire s)

/-- SafePtr::try_write (safeptr.hpp lines 213-224): noexcept; empty on a null
ControlBlock or when the writer mutex is already held. -/
def SPHandle.try_write (h : SPHandle) : Option (MState Addr × WGuard Addr) :=
  match h.ctrl with
  | none => none
  | some s =>
    if s.locked then none
    else some ({ s with locked := true }, { old_ptr := s.ptr, local_buf := none })

/-- Commit case lemma: no previous value, so only the publish happens. -/
theorem commit_some_none {α : Type} [DecidableEq α] (s : MState α) (v : α)
    (h : s.ptr = none) :
    commit_and_cleanup (some v) s = { s with ptr := some v } := by
  simp [commit_and_cleanup, h]

/-- Commit case lemma: zero readers, so old_global is destroyed immediately. -/
theorem commit_some_del0 {α : Type} [DecidableEq α] (s : MState α) (v og : α)
    (h : s.ptr = some og) (h0 : s.readers = 0) :
    commit_and_cleanup (some v) s = deleterCall og { s with ptr := some v } := by
  simp [commit_and_cleanup, h, h0]

/-- Commit case lemma: readers outstanding and the retired slot empty, so
old_global is parked in the retired slot. -/
theorem commit_some_retire {α : Type} [DecidableEq α] (s : MState α) (v og : α)
    (h : s.ptr = some og) (h0 : s.readers ≠ 0) (hret : s.retired = none) :
    commit_and_cleanup (some v) s = { s with ptr := some v, retired := some og } := by
  simp [commit_and_cleanup, h, h0, hret]

/-- Commit case lemma: readers outstanding but the retired slot occupied, so
old_global is destroyed immediately (the compare-exchange fails). -/
theorem commit_some_occupied {α : Type} [DecidableEq α] (s : MState α) (v og : α)
    (h : s.ptr = some og) (h0 : s.readers ≠ 0) (hret : s.retired ≠ none) :
    commit_and_cleanup (some v) s = deleterCall og { s with ptr := some v } := by
  simp [commit_and_cleanup, h, h0, hret]

/-- Publication helper: a commit with a staged value always installs it as the
current version. -/
theorem commit_ptr {α : Type} [DecidableEq α] (s : MState α) (v : α) :
    (commit_and_cleanup (some v) s).ptr = some v := by
  cases hptr : s.ptr with
  | none => rw [commit_some_none s v hptr]
  | some og =>
      by_cases h0 : s.readers = 0
      · rw [commit_some_del0 s v og hptr h0]
        rfl
      · by_cases hret : s.retired = none
        · rw [commit_some_retire s v og hptr h0 hret]
        · rw [commit_some_occupied s v og hptr h0 hret]
          rfl

/-- C1: for a WriteGuard on which a value was staged, destruction publishes the
staged value as `current`; the previous value `old_global` is destroyed
immediately when the reader count is zero, otherwise it is placed into the
retired slot when that slot is empty, and destroyed immediately when the slot
is already occupied. -/
theorem C1_commit_publishes_and_retires {α : Type} [DecidableEq α]
    (s : MState α) (v : α) :
    (commit_and_cleanup (some v) s).ptr = some v ∧
    (∀ og, s.ptr = some og →
      (s.readers = 0 →
        commit_and_cleanup (some v) s = deleterCall og { s with ptr := some v }) ∧
      (s.readers ≠ 0 → s.retired = none →
        commit_and_cleanup (some v) s = { s with ptr := some v, retired := some og }) ∧
      (s.readers ≠ 0 → s.retired ≠ none →
        commit_and_cleanup (some v) s = deleterCall og { s with ptr := some v })) := by
  refine ⟨commit_ptr s v, ?_⟩
  intro og hog
  exact ⟨commit_some_del0 s v og hog,
         commit_some_retire s v og hog,
         commit_some_occupied s v og hog⟩

/-- Witness for C1 at a concrete state: committing address 1 over `init 0`
(zero readers) publishes 1 and destroys 0 immediately. -/
theorem C1_witness :
    (commit_and_cleanup (some 1) (init 0)).ptr = some 1 ∧
    commit_and_cleanup (some 1) (init 0) = deleterCall 0 { init 0 with ptr := some 1 } :=
  ⟨(C1_commit_publishes_and_retires (init 0) 1).1,
   ((C1_commit_publishes_and_retires (init 0) 1).2 0 rfl).1 rfl⟩

/-- C8: destroying a WriteGuard on which nothing was staged leaves every
ControlBlock field (`current`, retired slot, reader count) and the heap
unchanged, destroys nothing, and only releases the writer lock; no publish
occurs. -/
theorem C8_no_stage_frame {α : Type} [DecidableEq α] (s : MState α) :
    (writeGuardDtor none s).ptr = s.ptr ∧
    (writeGuardDtor none s).retired = s.retired ∧
    (writeGuardDtor none s).readers = s.readers ∧
    (writeGuardDtor none s).live = s.live ∧
    (writeGuardDtor none s).destroyed = s.destroyed ∧
    (writeGuardDtor none s).locked = false ∧
    writeGuardDtor none s = { s with locked := false } :=
  ⟨rfl, rfl, rfl, rfl, rfl, rfl, rfl⟩

/-- C9: staging is last-write-wins: set_value v1 then set_value v2 leaves the
same guard as a single set_value v2, the staged value is v2, and the value
published at commit is the last value staged. -/
theorem C9_staging_last_write_wins {α : Type} [DecidableEq α]
    (g : WGuard α) (v1 v2 : α) (s : MState α) :
    set_value (set_value g v1) v2 = set_value g v2 ∧
    (set_value (set_value g v1) v2).local_buf = some v2 ∧
    (commit_and_cleanup (set_value (set_value g v1) v2).local_buf s).ptr = some v2 := by
  have h1 : set_value (set_value g v1) v2 = set_value g v2 := by
    cases hg : g.local_buf <;> simp [set_value, hg]
  have h2 : (set_value (set_value g v1) v2).local_buf = some v2 := by
    cases hg : g.local_buf <;> simp [set_value, hg]
  refine ⟨h1, h2, ?_⟩
  rw [h2]
  exact commit_ptr s v2

/-- C10: constructing a SafePtr from a null raw pointer allocates no
ControlBlock and is indistinguishable from a default-constructed handle:
valid() is false, read() and write() fail with NullHandle, try_read() and
try_write() are empty. -/
theorem C10_null_ctor_empty_handle :
    mkSafePtr none = defaultSafePtr ∧
    (mkSafePtr none).valid = false ∧
    (mkSafePtr none).read = .error .NullHandle ∧
    (mkSafePtr none).write = .error .NullHandle ∧
    (mkSafePtr none).try_read = none ∧
    (mkSafePtr none).try_write = none :=
  ⟨rfl, rfl, rfl, rfl, rfl, rfl⟩

/-- C6: read() and write() fail, with NullHandle, exactly when the handle holds
no ControlBlock; try_read() is empty exactly when no ControlBlock exists;
try_write() is empty exactly when no ControlBlock exists or the writer lock is
contended; the try variants return options (noexcept in the source) and so
never raise an error. -/
theorem C6_null_handle_and_try_variants (h : SPHandle) :
    ((∃ e, h.read = .error e) ↔ h.ctrl = none) ∧
    (h.read = .error .NullHandle ↔ h.ctrl = none) ∧
    (h.write = .error .NullHandle ↔ h.ctrl = none) ∧
    (h.try_read = none ↔ h.ctrl = none) ∧
    (h.try_write = none ↔ (h.ctrl = none ∨ ∃ s, h.ctrl = some s ∧ s.locked = true)) := by
  obtain ⟨c⟩ := h
  cases c with
  | none =>
      refine ⟨⟨fun _ => rfl, fun _ => ⟨.NullHandle, rfl⟩⟩, ?_, ?_, ?_, ?_⟩ <;>
        simp [SPHandle.read, SPHandle.write, SPHandle.try_read, SPHandle.try_write]
  | some s =>
      refine ⟨⟨?_, ?_⟩, ?_, ?_, ?_, ?_⟩
      · simp [SPHandle.read]
      · simp
      · simp [SPHandle.read]
      · simp [SPHandle.write]
      · simp [SPHandle.try_read]
      · by_cases hl : s.locked <;> simp [SPHandle.try_write, hl]

/-- Witness for C6 at concrete handles: the empty handle errs on read and is
empty on try_write; a fresh valued handle has a live ControlBlock. -/
theorem C6_witness :
    (defaultSafePtr.read = .error .NullHandle ↔ defaultSafePtr.ctrl = none) ∧
    ((mkSafePtr (some 3)).try_read = none ↔ (mkSafePtr (some 3)).ctrl = none) :=
  ⟨(C6_null_handle_and_try_variants defaultSafePtr).2.1,
   (C6_null_handle_and_try_variants (mkSafePtr (some 3))).2.2.2.1⟩

/-- Simp projections for `deleterCall`. -/
@[simp] theorem deleterCall_ptr {α : Type} [DecidableEq α] (a : α) (s : MState α) :
    (deleterCall a s).ptr = s.ptr := rfl

@[simp] theorem deleterCall_retired {α : Type} [DecidableEq α] (a : α) (s : MState α) :
    (deleterCall a s).retired = s.retired := rfl

@[simp] theorem deleterCall_readers {α : Type} [DecidableEq α] (a : α) (s : MState α) :
    (deleterCall a s).readers = s.readers := rfl

@[simp] theorem deleterCall_live {α : Type} [DecidableEq α] (a : α) (s : MState α) :
    (deleterCall a s).live = s.live.erase a := rfl

@[simp] theorem deleterCall_destroyed {α : Type} [DecidableEq α] (a : α) (s : MState α) :
    (deleterCall a s).destroyed = s.destroyed ++ [a] := rfl

/-- Freshness of one event relative to a state: the address a write stages is
returned by the allocator, hence distinct from every live and every previously
destroyed address; read events impose nothing. -/
def freshOp {α : Type} [DecidableEq α] (s : MState α) : Op α → Prop
  | .write a => a ∉ s.live ∧ a ∉ s.destroyed
  | .acquire => True
  | .release => True

instance freshOpDecidable {α : Type} [DecidableEq α] (s : MState α) (op : Op α) :
    Decidable (freshOp s op) :=
  match op with
  | .write _ => inferInstanceAs (Decidable (_ ∧ _))
  | .acquire => inferInstanceAs (Decidable True)
  | .release => inferInstanceAs (Decidable True)

/-- Freshness of every allocation along a run. -/
def FreshRun {α : Type} [DecidableEq α] : MState α → List (Op α) → Prop
  | _, [] => True
  | s, op :: ops => freshOp s op ∧ FreshRun (stepOp s op) ops

instance FreshRunDecidable {α : Type} [DecidableEq α] :
    (s : MState α) → (ops : List (Op α)) → Decidable (FreshRun s ops)
  | _, [] => inferInstanceAs (Decidable True)
  | s, op :: ops =>
    haveI := FreshRunDecidable (stepOp s op) ops
    inferInstanceAs (Decidable (_ ∧ _))

/-- Heap-consistency invariant of the machine: no double allocation, each
address destroyed at most once, destroyed addresses are gone from the heap,
the current and retired pointers point into the heap and never alias. -/
def Inv {α : Type} [DecidableEq α] (s : MState α) : Prop :=
  s.live.Nodup ∧
  s.destroyed.Nodup ∧
  (∀ a ∈ s.destroyed, a ∉ s.live) ∧
  (∀ a ∈ s.ptr, a ∈ s.live) ∧
  (∀ a ∈ s.retired, a ∈ s.live) ∧
  (∀ a ∈ s.ptr, ∀ b ∈ s.retired, a ≠ b)

/-- Deleting a live address whose value is aliased by neither the current nor
the retired pointer preserves the invariant. -/
theorem inv_deleterCall {α : Type} [DecidableEq α] {s : MState α} {a : α}
    (h : Inv s) (ha : a ∈ s.live)
    (hp : ∀ x ∈ s.ptr, x ≠ a) (hr : ∀ x ∈ s.retired, x ≠ a) :
    Inv (deleterCall a s) := by
  obtain ⟨hln, hdn, hdd, hpl, hrl, hpr⟩ := h
  have hand : a ∉ s.destroyed := fun hc => hdd a hc ha
  refine ⟨hln.erase a, ?_, ?_, ?_, ?_, ?_⟩
  · simp [List.nodup_append, hdn, hand]
  · intro x hx
    simp only [deleterCall_destroyed, List.mem_append, List.mem_singleton] at hx
    rcases hx with hx | rfl
    · intro hc
      exact hdd x hx (List.mem_of_mem_erase hc)
    · simp [List.Nodup.mem_erase_iff hln]
  · intro x hx
    simp only [deleterCall_ptr] at hx
    simp only [deleterCall_live]
    exact List.mem_erase_of_ne (hp x hx) |>.mpr (hpl x hx)
  · intro x hx
    simp only [deleterCall_retired] at hx
    simp only [deleterCall_live]
    exact List.mem_erase_of_ne (hr x hx) |>.mpr (hrl x hx)
  · intro x hx b hb
    exact hpr x hx b hb

/-- Unpacking membership in a `some`. -/
theorem memSome {α : Type} {x y : α} (h : x ∈ (some y : Option α)) : x = y :=
  (Option.some.inj (Option.mem_def.mp h)).symm

/-- One fresh protocol event preserves the heap invariant. -/
theorem inv_stepOp {α : Type} [DecidableEq α] {s : MState α} {op : Op α}
    (h : Inv s) (hf : freshOp s op) : Inv (stepOp s op) :=
  match op with
  | .acquire => h
  | .release => by
      obtain ⟨hln, hdn, hdd, hpl, hrl, hpr⟩ := h
      show Inv (readRelease s)
      unfold readRelease
      split_ifs with h1
      · cases hret : s.retired with
        | none =>
            show Inv { s with readers := s.readers - 1, retired := (none : Option α) }
            refine ⟨hln, hdn, hdd, hpl, ?_, ?_⟩
            · intro x hx
              simp at hx
            · intro x hx b hb
              simp at hb
        | some r =>
            have hInv2 : Inv { s with readers := s.readers - 1, retired := (none : Option α) } := by
              refine ⟨hln, hdn, hdd, hpl, ?_, ?_⟩
              · intro x hx
                simp at hx
              · intro x hx b hb
                simp at hb
            refine inv_deleterCall hInv2 (hrl r (Option.mem_def.mpr hret)) ?_ ?_
            · intro x hx
              exact hpr x hx r (Option.mem_def.mpr hret)
            · intro x hx
              simp at hx
      · exact ⟨hln, hdn, hdd, hpl, hrl, hpr⟩
  | .write a => by
      obtain ⟨hfl, hfd⟩ := hf
      obtain ⟨hln, hdn, hdd, hpl, hrl, hpr⟩ := h
      have hln2 : (a :: s.live).Nodup := by simp [hln, hfl]
      have hdd2 : ∀ x ∈ s.destroyed, x ∉ a :: s.live := by
        intro x hx
        simp only [List.mem_cons, not_or]
        exact ⟨fun hc => hfd (hc ▸ hx), hdd x hx⟩
      show Inv (commit_and_cleanup (some a) { s with live := a :: s.live, locked := true })
      have hInvPub : Inv { s with live := a :: s.live, locked := true, ptr := some a } := by
        refine ⟨hln2, hdn, hdd2, ?_, ?_, ?_⟩
        · intro x hx
          rw [memSome hx]
          exact List.mem_cons_self a s.live
        · intro x hx
          exact List.mem_cons_of_mem a (hrl x hx)
        · intro x hx b hb
          rw [memSome hx]
          intro hc
          exact hfl (by rw [hc]; exact hrl b hb)
      cases hptr : s.ptr with
      | none =>
          rw [commit_some_none
              { s with ptr := (none : Option α), live := a :: s.live, locked := true } a rfl]
          exact hInvPub
      | some og =>
          have hogl : og ∈ s.live := hpl og (Option.mem_def.mpr hptr)
          have hogne : a ≠ og := fun hc => hfl (hc ▸ hogl)
          have hdel : Inv (deleterCall og
              { s with live := a :: s.live, locked := true, ptr := some a }) := by
            refine inv_deleterCall hInvPub (List.mem_cons_of_mem a hogl) ?_ ?_
            · intro x hx
              rw [memSome hx]
              exact hogne
            · intro x hx
              exact (hpr og (Option.mem_def.mpr hptr) x hx).symm
          by_cases h0 : s.readers = 0
          · rw [commit_some_del0
                { s with ptr := some og, live := a :: s.live, locked := true } a og rfl h0]
            exact hdel
          · by_cases hret : s.retired = none
            · rw [commit_some_retire
                  { s with ptr := some og, live := a :: s.live, locked := true } a og rfl h0 hret]
              refine ⟨hln2, hdn, hdd2, ?_, ?_, ?_⟩
              · intro x hx
                rw [memSome hx]
                exact List.mem_cons_self a s.live
              · intro x hx
                rw [memSome hx]
                exact List.mem_cons_of_mem a hogl
              · intro x hx b hb
                rw [memSome hx, memSome hb]
                exact hogne
            · rw [commit_some_occupied
                  { s with ptr := some og, live := a :: s.live, locked := true } a og rfl h0 hret]
              exact hdel

/-- A fresh run preserves the heap invariant. -/
theorem inv_runOps {α : Type} [DecidableEq α] {s : MState α} {ops : List (Op α)}
    (h : Inv s) (hf : FreshRun s ops) : Inv (runOps s ops) := by
  induction ops generalizing s with
  | nil => exact h
  | cons op ops ih =>
      obtain ⟨hf1, hf2⟩ := hf
      exact ih (inv_stepOp h hf1) hf2

/-- Initial states satisfy the heap invariant. -/
theorem inv_init (a : Addr) : Inv (init a) := by
  refine ⟨?_, ?_, ?_, ?_, ?_, ?_⟩ <;> simp [init]

/-- Frame lemma: a release also destructures the state only in the expected
fields; the current pointer is never touched. -/
theorem readRelease_ptr {α : Type} [DecidableEq α] (s : MState α) :
    (readRelease s).ptr = s.ptr := by
  unfold readRelease
  split_ifs with h1
  · cases hret : s.retired with
    | none => rfl
    | some r => rfl
  · rfl

/-- Frame lemma: a release always leaves the reader count decremented. -/
theorem readRelease_readers {α : Type} [DecidableEq α] (s : MState α) :
    (readRelease s).readers = s.readers - 1 := by
  unfold readRelease
  split_ifs with h1
  · cases hret : s.retired with
    | none => rfl
    | some r => rfl
  · rfl

/-- Frame lemma: a commit never changes the reader count. -/
theorem commit_readers {α : Type} [DecidableEq α] (lcl : Option α) (s : MState α) :
    (commit_and_cleanup lcl s).readers = s.readers := by
  cases lcl with
  | none => rfl
  | some v =>
      cases hptr : s.ptr with
      | none => rw [commit_some_none s v hptr]
      | some og =>
          by_cases h0 : s.readers = 0
          · rw [commit_some_del0 s v og hptr h0]
            rfl
          · by_cases hret : s.retired = none
            · rw [commit_some_retire s v og hptr h0 hret]
            · rw [commit_some_occupied s v og hptr h0 hret]
              rfl

/-- Frame lemma: a commit by a writer that sees readers outstanding and an
empty retired slot destroys nothing and leaves the heap as it was. -/
theorem commit_retire_frame {α : Type} [DecidableEq α] (s : MState α) (v : α)
    (h0 : s.readers ≠ 0) (hret : s.retired = none) :
    (commit_and_cleanup (some v) s).destroyed = s.destroyed ∧
    (commit_and_cleanup (some v) s).live = s.live := by
  cases hptr : s.ptr with
  | none =>
      rw [commit_some_none s v hptr]
      exact ⟨rfl, rfl⟩
  | some og =>
      rw [commit_some_retire s v og hptr h0 hret]
      exact ⟨rfl, rfl⟩

/-- C2: every value placed in the retired slot is released exactly once. Along
any fresh protocol run the deleter log has no duplicates; a ReadGuard release
reclaims the retired occupant precisely when its decrement brings the reader
count to zero (emptying the slot, with no reader left outstanding); a release
that does not observe the transition to zero destroys nothing and leaves the
slot alone; and a commit never destroys or removes a value already sitting in
the retired slot (at commit time only the incoming old_global can be destroyed
immediately, per C1, when the reader count is already zero or the slot is
occupied). -/
theorem C2_retired_released_exactly_once (a : Addr) (ops : List (Op Addr))
    (s : MState Addr) (r : Addr) :
    (FreshRun (init a) ops → ((runOps (init a) ops).destroyed).Nodup) ∧
    (s.retired = some r → s.readers = 1 →
      (readRelease s).retired = none ∧
      (readRelease s).destroyed = s.destroyed ++ [r] ∧
      (readRelease s).readers = 0) ∧
    (s.readers ≠ 1 →
      (readRelease s).retired = s.retired ∧
      (readRelease s).destroyed = s.destroyed) ∧
    (∀ lcl, Inv s → s.retired = some r →
      (commit_and_cleanup lcl s).retired = some r ∧
      r ∈ (commit_and_cleanup lcl s).live ∧
      r ∉ (commit_and_cleanup lcl s).destroyed) := by
  refine ⟨?_, ?_, ?_, ?_⟩
  · intro hf
    exact (inv_runOps (inv_init a) hf).2.1
  · intro hret h1
    refine ⟨?_, ?_, ?_⟩ <;> simp [readRelease, h1, hret]
  · intro h1
    refine ⟨?_, ?_⟩ <;> simp [readRelease, h1]
  · intro lcl hInv hret
    obtain ⟨hln, hdn, hdd, hpl, hrl, hpr⟩ := hInv
    have hrlive : r ∈ s.live := hrl r (Option.mem_def.mpr hret)
    have hrnd : r ∉ s.destroyed := fun hc => hdd r hc hrlive
    cases lcl with
    | none => exact ⟨hret, hrlive, hrnd⟩
    | some v =>
        cases hptr : s.ptr with
        | none =>
            rw [commit_some_none s v hptr]
            exact ⟨hret, hrlive, hrnd⟩
        | some og =>
            have hne : r ≠ og :=
              (hpr og (Option.mem_def.mpr hptr) r (Option.mem_def.mpr hret)).symm
            have hres :
                commit_and_cleanup (some v) s = deleterCall og { s with ptr := some v } := by
              by_cases h0 : s.readers = 0
              · exact commit_some_del0 s v og hptr h0
              · refine commit_some_occupied s v og hptr h0 ?_
                simp [hret]
            rw [hres]
            refine ⟨hret, ?_, ?_⟩
            · exact (List.mem_erase_of_ne hne).mpr hrlive
            · simp [hrnd, hne]

/-- Witness for C2: a concrete fresh run (its log is duplicate-free); the
release of the last reader reclaims the retired value and empties the slot; a
release that is not last reclaims nothing; a further commit leaves the retired
occupant alone. -/
theorem C2_witness :
    ((runOps (init 0) [Op.acquire, Op.write 1, Op.release]).destroyed).Nodup ∧
    (readRelease (runOps (init 0) [Op.acquire, Op.write 1])).retired = none ∧
    (readRelease (runOps (init 0) [Op.acquire, Op.write 1])).destroyed =
      (runOps (init 0) [Op.acquire, Op.write 1]).destroyed ++ [0] ∧
    (readRelease (runOps (init 0) [Op.acquire, Op.write 1])).readers = 0 ∧
    (readRelease (init 5)).destroyed = (init 5).destroyed ∧
    (commit_and_cleanup (some 2) (runOps (init 0) [Op.acquire, Op.write 1])).retired =
      some 0 := by
  have h1 := C2_retired_released_exactly_once 0 [Op.acquire, Op.write 1, Op.release]
      (runOps (init 0) [Op.acquire, Op.write 1]) 0
  have h2 := C2_retired_released_exactly_once 0 [] (init 5) 0
  refine ⟨h1.1 (by decide), ?_, ?_, ?_, ?_, ?_⟩
  · exact (h1.2.1 (by decide) (by decide)).1
  · exact (h1.2.1 (by decide) (by decide)).2.1
  · exact (h1.2.1 (by decide) (by decide)).2.2
  · exact (h2.2.2.1 (by decide)).2
  · exact (h1.2.2.2 (some 2) (inv_runOps (inv_init 0) (by decide)) (by decide)).1

/-- Preservation: a protocol step never clears the current pointer. -/
theorem ptr_ne_none_stepOp {α : Type} [DecidableEq α] {s : MState α} (op : Op α)
    (h : s.ptr ≠ none) : (stepOp s op).ptr ≠ none := by
  cases op with
  | write a =>
      have hc := commit_ptr { s with live := a :: s.live, locked := true } a
      show (commit_and_cleanup (some a) { s with live := a :: s.live, locked := true }).ptr ≠ none
      rw [hc]
      exact Option.some_ne_none a
  | acquire => exact h
  | release =>
      show (readRelease s).ptr ≠ none
      rw [readRelease_ptr]
      exact h

/-- Preservation, run version. -/
theorem ptr_ne_none_runOps {α : Type} [DecidableEq α] {s : MState α}
    (ops : List (Op α)) (h : s.ptr ≠ none) : (runOps s ops).ptr ≠ none := by
  induction ops generalizing s with
  | nil => exact h
  | cons op ops ih => exact ih (ptr_ne_none_stepOp op h)

/-- C4: WriteGuard::old returns the value snapshotted at guard acquisition and
fails with NoOldValue exactly when that snapshot is absent, i.e. when no value
was ever published through the ControlBlock; the block cannot be constructed
empty (a null raw pointer produces no block at all), and on every protocol run
from a handle constructed with an initial value the current pointer stays
non-null, so a WriteGuard acquired there has a snapshot and old() succeeds;
for a fresh WriteGuard on such a handle old() returns the initial value. -/
theorem C4_old_value (a : Addr) (ops : List (Op Addr)) (g : WGuard Addr) :
    (g.old = .error .NoOldValue ↔ g.old_ptr = none) ∧
    ((runOps (init a) ops).ptr ≠ none) ∧
    (∀ s1 g1, (mkSafePtr (some a)).write = .ok (s1, g1) → g1.old = .ok a) ∧
    (∃ g2 v, (SPHandle.mk (some (runOps (init a) ops))).write =
        .ok ({ runOps (init a) ops with locked := true }, g2) ∧ g2.old = .ok v) := by
  have hne : (runOps (init a) ops).ptr ≠ none :=
    ptr_ne_none_runOps ops (by simp [init])
  refine ⟨?_, hne, ?_, ?_⟩
  · cases hg : g.old_ptr <;> simp [WGuard.old, hg]
  · intro s1 g1 hw
    simp only [mkSafePtr, SPHandle.write, Except.ok.injEq, Prod.mk.injEq] at hw
    rw [← hw.2]
    rfl
  · obtain ⟨v, hv⟩ := Option.ne_none_iff_exists.mp hne
    refine ⟨{ old_ptr := (runOps (init a) ops).ptr, local_buf := none }, v, rfl, ?_⟩
    unfold WGuard.old
    rw [← hv]

/-- Witness for C4 at concrete inputs: the characterization at a guard holding
a snapshot, non-nullness after a concrete run, and old() = 0 for a fresh guard
on a handle constructed with address 0. -/
theorem C4_witness :
    ((WGuard.mk (some 7) none).old = .error .NoOldValue ↔
      (WGuard.mk (some 7) none).old_ptr = none) ∧
    (runOps (init 0) [Op.acquire, Op.write 1]).ptr ≠ none ∧
    (WGuard.mk (some 0) none).old = .ok 0 := by
  have h := C4_old_value 0 [Op.acquire, Op.write 1] (WGuard.mk (some 7) none)
  exact ⟨h.1, h.2.1, h.2.2.1 { init 0 with locked := true } (WGuard.mk (some 0) none) rfl⟩

/-- Dereference through a ReadGuard's snapshot pointer (operator*, safeptr.hpp
line 277): the read is well-defined only while the pointee is still allocated;
a pointee already handed to the deleter is a dangling pointer and yields no
value. -/
def derefSnap {α : Type} [DecidableEq α] (s : MState α) (snap : Option α) : Option α :=
  match snap with
  | none => none
  | some p => if p ∈ s.live then some p else none

/-- Per-event side condition for snapshot stability: a write may only commit
while the retired slot is empty, so the occupied-slot fallback of
commit_and_cleanup (the spec's section 4.3 caveat) never fires. -/
def stableOp {α : Type} [DecidableEq α] (s : MState α) : Op α → Prop
  | .write _ => s.retired = none
  | .acquire => True
  | .release => True

instance stableOpDecidable {α : Type} [DecidableEq α] (s : MState α) (op : Op α) :
    Decidable (stableOp s op) :=
  match op with
  | .write _ => inferInstanceAs (Decidable (_ = _))
  | .acquire => inferInstanceAs (Decidable True)
  | .release => inferInstanceAs (Decidable True)

/-- Run-level stability condition: every state along the run keeps at least one
reader registered (the guard under discussion is alive throughout), and every
write commits with the retired slot empty. -/
def StableRun {α : Type} [DecidableEq α] : MState α → List (Op α) → Prop
  | _, [] => True
  | s, op :: ops =>
      1 ≤ (stepOp s op).readers ∧ stableOp s op ∧ StableRun (stepOp s op) ops

instance StableRunDecidable {α : Type} [DecidableEq α] :
    (s : MState α) → (ops : List (Op α)) → Decidable (StableRun s ops)
  | _, [] => inferInstanceAs (Decidable True)
  | s, op :: ops =>
    haveI := StableRunDecidable (stepOp s op) ops
    inferInstanceAs (Decidable (_ ∧ _))

/-- Along a stable run nothing is ever handed to the deleter: the deleter log
does not grow and every live address stays live. -/
theorem stable_no_reclaim {α : Type} [DecidableEq α] {s : MState α}
    {ops : List (Op α)} (hst : StableRun s ops) :
    (runOps s ops).destroyed = s.destroyed ∧ ∀ p ∈ s.live, p ∈ (runOps s ops).live := by
  induction ops generalizing s with
  | nil => exact ⟨rfl, fun p hp => hp⟩
  | cons op ops ih =>
      obtain ⟨h1, h2, h3⟩ := hst
      have key : (stepOp s op).destroyed = s.destroyed ∧
          ∀ p ∈ s.live, p ∈ (stepOp s op).live := by
        cases op with
        | acquire => exact ⟨rfl, fun p hp => hp⟩
        | release =>
            have hne : s.readers ≠ 1 := by
              intro hc
              have hr : (stepOp s Op.release).readers = s.readers - 1 :=
                readRelease_readers s
              rw [hr, hc] at h1
              omega
            have hrr : readRelease s = { s with readers := s.readers - 1 } := by
              unfold readRelease
              rw [if_neg hne]
            show (readRelease s).destroyed = s.destroyed ∧
              ∀ p ∈ s.live, p ∈ (readRelease s).live
            rw [hrr]
            exact ⟨rfl, fun p hp => hp⟩
        | write a =>
            have hr0 : s.readers ≠ 0 := by
              intro hc
              have hsr : (stepOp s (Op.write a)).readers = s.readers := by
                show (commit_and_cleanup (some a)
                    { s with live := a :: s.live, locked := true }).readers = s.readers
                rw [commit_readers]
              rw [hsr, hc] at h1
              omega
            have hcf := commit_retire_frame
                { s with live := a :: s.live, locked := true } a hr0 h2
            refine ⟨?_, ?_⟩
            · show (commit_and_cleanup (some a)
                  { s with live := a :: s.live, locked := true }).destroyed = s.destroyed
              rw [hcf.1]
            · intro p hp
              show p ∈ (commit_and_cleanup (some a)
                  { s with live := a :: s.live, locked := true }).live
              rw [hcf.2]
              exact List.mem_cons_of_mem a hp
      obtain ⟨k1, k2⟩ := key
      obtain ⟨i1, i2⟩ := ih h3
      refine ⟨?_, ?_⟩
      · show (runOps (stepOp s op) ops).destroyed = s.destroyed
        rw [i1, k1]
      · intro p hp
        exact i2 p (k2 p hp)

/-- Hazard scenario of the spec's section 4.3 caveat: a reader snapshots
generation 1, a first write retires generation 1, a second reader snapshots
generation 2, and a second write then finds the retired slot occupied. -/
def hazardMid : MState Addr := stepOp ((readAcquire (init 1)).1) (Op.write 2)

/-- Snapshot taken by the second reader (generation 2). -/
def hazardSnap : Option Addr := (readAcquire hazardMid).2

/-- State after the second write commits while the retired slot is occupied. -/
def hazardEnd : MState Addr := stepOp ((readAcquire hazardMid).1) (Op.write 3)

/-- C3 counterexample: no ReadGuard is ever released in this run, so the second
guard is alive from its acquisition through the second commit, and a write
commits a newer value while it is alive; yet its snapshot (generation 2) is
passed to the deleter by that commit, and dereferencing no longer yields the
captured value. The unconditional read-stability claim is false on the code:
the occupied-slot fallback destroys a value a live ReadGuard still snapshots. -/
theorem C3_counterexample :
    hazardSnap = some 2 ∧
    derefSnap (readAcquire hazardMid).1 hazardSnap = some 2 ∧
    derefSnap hazardEnd hazardSnap = none ∧
    2 ∈ hazardEnd.destroyed := by decide

/-- C3 (amended): a ReadGuard snapshots the value current at acquisition and
dereferences to it; the snapshot never changes while the guard is alive
provided every write that commits during the guard's lifetime finds the
retired slot empty (so the section 4.3 occupied-slot fallback never fires); in
particular a single concurrent commit into an empty retired slot leaves the
snapshot intact. -/
theorem C3_read_stability_amended (s0 : MState Addr) (ops : List (Op Addr)) (p : Addr)
    (hptr : s0.ptr = some p) (hInv : Inv s0)
    (hst : StableRun (readAcquire s0).1 ops) :
    (readAcquire s0).2 = some p ∧
    derefSnap (readAcquire s0).1 (some p) = some p ∧
    derefSnap (runOps (readAcquire s0).1 ops) (some p) = some p := by
  have hl : p ∈ s0.live := hInv.2.2.2.1 p (Option.mem_def.mpr hptr)
  obtain ⟨hd, hlv⟩ := stable_no_reclaim hst
  refine ⟨hptr, ?_, ?_⟩
  · show derefSnap { s0 with readers := s0.readers + 1 } (some p) = some p
    simp [derefSnap, hl]
  · have hpl : p ∈ (runOps (readAcquire s0).1 ops).live := hlv p hl
    simp [derefSnap, hpl]

/-- Witness for C3 (amended) at a concrete input: a guard acquired on `init 1`
stays dereferenceable to generation 1 across one concurrent commit into the
empty retired slot. -/
theorem C3_witness :
    (readAcquire (init 1)).2 = some 1 ∧
    derefSnap (readAcquire (init 1)).1 (some 1) = some 1 ∧
    derefSnap (runOps (readAcquire (init 1)).1 [Op.write 2]) (some 1) = some 1 :=
  C3_read_stability_amended (init 1) [Op.write 2] 1 rfl (inv_init 1) (by decide)

/-- SafePtr::release_strong (safeptr.hpp lines 73-90): drop one strong
reference; the last owner exchanges `ptr` to null, destroys the managed object
through the deleter, and deletes the ControlBlock only when no weak observer
remains. Returns the surviving block state, or `none` when the block itself
was deleted. -/
def release_strong (s : MState Addr) : Option (MState Addr) :=
  if s.strong = 1 then
    match s.ptr with
    | some obj =>
        if s.weak = 0 then none
        else some (deleterCall obj { s with strong := 0, ptr := none })
    | none =>
        if s.weak = 0 then none
        else some { s with strong := 0, ptr := none }
  else some { s with strong := s.strong - 1 }

/-- SafeWeakPtr::expired (safeptr.hpp lines 527-530): no ControlBlock is
reachable, or the managed value is absent. -/
def weakExpired (b : Option (MState Addr)) : Bool :=
  match b with
  | none => true
  | some s => s.ptr.isNone

/-- SafeWeakPtr::try_read (safeptr.hpp lines 537-548): empty when there is no
ControlBlock or the managed value is gone; otherwise a ReadGuard. -/
def weakTryRead (b : Option (MState Addr)) : Option (MState Addr × Option Addr) :=
  match b with
  | none => none
  | some s =>
    match s.ptr with
    | none => none
    | some _ => some (readAcquire s)

/-- C7: a weak handle's try_read returns a guard while the owning handle is
alive and holds a value; after the owning handle is destroyed (strong count
reached 1 and is dropped, tearing down the managed value) try_read reports
absence with no error even though the ControlBlock survives for the weak
observer; and expired() is true exactly when no ControlBlock is reachable or
the managed value is absent. -/
theorem C7_weak_expiry (s : MState Addr) (a : Addr) (b : Option (MState Addr)) :
    (s.ptr = some a →
      weakTryRead (some s) = some (readAcquire s) ∧ weakExpired (some s) = false) ∧
    (s.strong = 1 → 1 ≤ s.weak →
      ∃ s2, release_strong s = some s2 ∧ s2.ptr = none ∧
        weakTryRead (some s2) = none ∧ weakExpired (some s2) = true) ∧
    (weakExpired b = true ↔ b = none ∨ ∃ s3, b = some s3 ∧ s3.ptr = none) := by
  refine ⟨?_, ?_, ?_⟩
  · intro hp
    constructor
    · show (match s.ptr with
        | none => none
        | some _ => some (readAcquire s)) = some (readAcquire s)
      rw [hp]
    · show s.ptr.isNone = false
      rw [hp]
      rfl
  · intro hs hw
    have hw0 : s.weak ≠ 0 := by omega
    cases hp : s.ptr with
    | none =>
        refine ⟨{ s with strong := 0, ptr := none }, ?_, rfl, rfl, rfl⟩
        unfold release_strong
        rw [if_pos hs, hp]
        simp [hw0]
    | some obj =>
        refine ⟨deleterCall obj { s with strong := 0, ptr := none }, ?_, rfl, rfl, rfl⟩
        unfold release_strong
        rw [if_pos hs, hp]
        simp [hw0]
  · cases b with
    | none => simp [weakExpired]
    | some s3 =>
        cases hp : s3.ptr with
        | none => simp [weakExpired, hp, Option.isNone]
        | some x => simp [weakExpired, hp, Option.isNone]

/-- Witness for C7 at concrete inputs: on a live block holding address 4 the
weak try_read yields a guard; dropping the last strong reference with one weak
observer attached leaves a surviving block whose try_read is empty and which
is expired. -/
theorem C7_witness :
    (weakTryRead (some { init 4 with weak := 1 }) =
      some (readAcquire { init 4 with weak := 1 }) ∧
      weakExpired (some { init 4 with weak := 1 }) = false) ∧
    (∃ s2, release_strong { init 4 with weak := 1 } = some s2 ∧ s2.ptr = none ∧
      weakTryRead (some s2) = none ∧ weakExpired (some s2) = true) ∧
    (weakExpired none = true ↔ none = (none : Option (MState Addr)) ∨
      ∃ s3, (none : Option (MState Addr)) = some s3 ∧ s3.ptr = none) := by
  have h := C7_weak_expiry { init 4 with weak := 1 } 4 (none : Option (MState Addr))
  exact ⟨h.1 rfl, h.2.1 rfl (by decide), h.2.2⟩

/-- Modelled from the spec: the array variant is not present under src/ (the
header contains only the single-object SafePtr and SafeWeakPtr); spec sections
2 and 4.5 describe it as the same protocol specialized to a contiguous buffer.
This commit follows the spec's words: "WriteGuard accepts a pre-built
replacement buffer rather than a single staged value, with identical
publish/retire/commit rules" — publish the staged buffer, destroy the old
buffer immediately when no reader is registered, otherwise retire it into the
single slot when empty, else destroy it immediately. -/
def arrCommit (staged : Option (List Nat)) (s : MState (List Nat)) : MState (List Nat) :=
  match staged with
  | none => s
  | some buf =>
    match s.ptr with
    | none => { s with ptr := some buf }
    | some old_buf =>
      if s.readers = 0 then deleterCall old_buf { s with ptr := some buf }
      else if s.retired = none then { s with ptr := some buf, retired := some old_buf }
      else deleterCall old_buf { s with ptr := some buf }

/-- Modelled from the spec: array ReadGuard indexed read access into the
guard's snapshot buffer (spec section 4.5, "indexed read access"). -/
def arrIndexRead (snap : List Nat) (i : Nat) : Option Nat := snap.get? i

/-- Modelled from the spec: array ReadGuard raw access to the snapshot buffer
(spec section 4.5, "length-free raw access to the snapshot"). -/
def arrRawAccess (snap : List Nat) : List Nat := snap

/-- Modelled from the spec: array WriteGuard staging of a pre-built
replacement buffer (spec section 4.5). -/
def arrSetBuffer (g : WGuard (List Nat)) (buf : List Nat) : WGuard (List Nat) :=
  { g with local_buf := some buf }

/-- C5: the array variant follows the single-object protocol specialized to a
buffer: its commit coincides with the single-object commit_and_cleanup
instantiated at buffers (identical publish/retire/commit rules); a ReadGuard
acquired on a block holding a buffer snapshots that buffer and exposes indexed
and raw access to it; and the WriteGuard stages a whole pre-built replacement
buffer, which is what a commit publishes. -/
theorem C5_array_variant (staged : Option (List Nat)) (s t : MState (List Nat))
    (buf : List Nat) (g : WGuard (List Nat)) :
    (arrCommit staged s = commit_and_cleanup staged s) ∧
    (t.ptr = some buf →
      (readAcquire t).2 = some buf ∧
      (∀ i, arrIndexRead buf i = buf.get? i) ∧
      arrRawAccess buf = buf) ∧
    ((arrSetBuffer g buf).local_buf = some buf ∧
      (arrCommit (arrSetBuffer g buf).local_buf t).ptr = some buf) := by
  have hcoin : arrCommit staged s = commit_and_cleanup staged s := by
    cases staged with
    | none => rfl
    | some b =>
        unfold arrCommit commit_and_cleanup
        cases hp : s.ptr with
        | none => rfl
        | some ob => rfl
  refine ⟨hcoin, ?_, ?_⟩
  · intro hp
    exact ⟨hp, fun i => rfl, rfl⟩
  · refine ⟨rfl, ?_⟩
    have h2 : arrCommit (some buf) t = commit_and_cleanup (some buf) t := by
      unfold arrCommit commit_and_cleanup
      cases hp : t.ptr with
      | none => rfl
      | some ob => rfl
    show (arrCommit (some buf) t).ptr = some buf
    rw [h2]
    exact commit_ptr t buf

/-- Concrete array-variant block for the C5 witness: current buffer [1, 2], a
staged replacement [9, 9] already allocated, no readers. -/
def arrDemo : MState (List Nat) :=
  { ptr := some [1, 2], readers := 0, retired := none, locked := false,
    strong := 1, weak := 0, live := [[1, 2], [9, 9]], destroyed := [] }

/-- Witness for C5 at concrete inputs: the coincidence of the two commits, the
snapshot and the access operations on a concrete buffer. -/
theorem C5_witness :
    (arrCommit (some [9, 9]) arrDemo = commit_and_cleanup (some [9, 9]) arrDemo) ∧
    ((readAcquire arrDemo).2 = some [1, 2] ∧
      (∀ i, arrIndexRead [1, 2] i = [1, 2].get? i) ∧
      arrRawAccess [1, 2] = [1, 2]) := by
  have h := C5_array_variant (some [9, 9]) arrDemo arrDemo [1, 2] (WGuard.mk none none)
  exact ⟨h.1, h.2.1 rfl⟩

end SafePtrModel
